import Mathlib

/-!
Verification of the retrieval-and-caching engine of the nutritional chatbot
repository (src/app.py, src/train_chat_model.py) against its natural-language
specification.  Python functions are shallowly embedded as Lean definitions:
global mutable tables become explicit state arguments, floats become ℚ where
the code only adds and divides, and ℝ where square roots or logarithms occur;
the external embedding service becomes an explicit oracle argument.
-/

/-! ## String primitives

Python string operations used by app.py: `str.lower`, `str.split()` (split on
whitespace runs, dropping empty pieces) and the substring test `a in b`.
Characters are mapped through `Char.toLower`, which matches Python lowercasing
on the ASCII corpus text the program handles. -/

/-- Python `str.lower`, as a character map over the underlying character list. -/
def pyLower (s : String) : String := ⟨s.data.map Char.toLower⟩

/-- Bool test that the first character list starts the second one. -/
def startsWithChars : List Char → List Char → Bool
  | [], _ => true
  | _ :: _, [] => false
  | c :: cs, d :: ds => c == d && startsWithChars cs ds

/-- Bool test that the needle occurs contiguously somewhere in the haystack. -/
def containsChars (needle : List Char) : List Char → Bool
  | [] => startsWithChars needle []
  | d :: ds => startsWithChars needle (d :: ds) || containsChars needle ds

/-- Python substring test `needle in haystack`. -/
def occursIn (needle haystack : String) : Bool :=
  containsChars needle.data haystack.data

/-- Helper for `pySplit`: accumulates the current run of non-whitespace
characters (reversed) and emits it when a whitespace character or the end of
the string is reached. -/
def splitWsAux : List Char → List Char → List (List Char)
  | [], acc => if acc.isEmpty then [] else [acc.reverse]
  | c :: cs, acc =>
    if c.isWhitespace then
      if acc.isEmpty then splitWsAux cs [] else acc.reverse :: splitWsAux cs []
    else splitWsAux cs (c :: acc)

/-- Python `str.split()` with no argument: split on runs of whitespace and
drop empty pieces. -/
def pySplit (s : String) : List String :=
  (splitWsAux s.data []).map String.mk

/-! ## Data model

A corpus document as loaded from kb.json by `load_knowledge_base`.  Only the
fields read by the retrieval paths are modelled (`id`, `title`, `content`,
`category`, `embedding`); the `nutrition` and `ayurveda` payload maps are
carried through the search results unchanged by the code and are irrelevant
to every claim, so they are omitted here. -/

structure Doc where
  id : String
  title : String
  content : String
  category : String
  embedding : Option (List ℝ)

/-- A search result as built by `fallback_keyword_search` (lexical strategy).
The similarity is an exact rational, standing for the Python float. -/
structure SearchResult where
  id : String
  title : String
  content : String
  similarity : ℚ
  source : String
deriving DecidableEq

/-- Descending-similarity comparison used to sort lexical result lists. -/
def simGE (a b : SearchResult) : Prop := b.similarity ≤ a.similarity

instance : DecidableRel simGE := fun _ _ => inferInstanceAs (Decidable (_ ≤ _))

instance : IsTotal SearchResult simGE :=
  ⟨fun a b => (le_total b.similarity a.similarity).elim Or.inl Or.inr⟩

instance : IsTrans SearchResult simGE :=
  ⟨fun _ _ _ h1 h2 => le_trans h2 h1⟩

/-! ## Lexical strategy: fallback_keyword_search (app.py lines 628 to 662) -/

/-- The keyword match score of `fallback_keyword_search`: for each query term,
add 3 if the term is a substring of the lowercased title, 1 if a substring of
the lowercased content, and 2 if a substring of the lowercased category. -/
def keywordScore (queryTerms : List String) (d : Doc) : ℕ :=
  queryTerms.foldl (fun score term =>
    score + (if occursIn term (pyLower d.title) then 3 else 0)
          + (if occursIn term (pyLower d.content) then 1 else 0)
          + (if occursIn term (pyLower d.category) then 2 else 0)) 0

/-- Python `min` on two rationals, written out so that it evaluates by kernel
reduction. -/
def pyMin (a b : ℚ) : ℚ := if a ≤ b then a else b

/-- The result record `fallback_keyword_search` appends for a scored document. -/
def mkKeywordResult (d : Doc) (score : ℕ) : SearchResult :=
  { id := d.id
    title := d.title
    content := d.content
    similarity := pyMin ((score : ℚ) / 10) 1
    source := "knowledge_base" }

/-- Embedding of `fallback_keyword_search(query, top_k)`: lowercase and
whitespace-split the query, score every corpus document, keep only documents
with positive score, sort by descending similarity and truncate to `top_k`. -/
def fallback_keyword_search (kbDocs : List Doc) (query : String) (topK : ℕ) :
    List SearchResult :=
  let queryTerms := pySplit (pyLower query)
  let results := kbDocs.filterMap (fun d =>
    let score := keywordScore queryTerms d
    if 0 < score then some (mkKeywordResult d score) else none)
  (results.insertionSort simGE).take topK

/-! ## Vector strategy (app.py lines 560 to 619)

The success path of `search_knowledge_base`: embed the query, score every
document carrying an embedding by cosine similarity, add 0.2 for each query
term that is a substring of the lowercased title, keep documents whose boosted
score reaches the threshold, sort descending and truncate.  Similarities are
real numbers because the magnitude computation takes square roots. -/

/-- Embedding of `cosine_similarity(a, b)` from app.py lines 69 to 78: dot
product over the zipped vectors divided by the product of magnitudes, with the
zero-magnitude guard returning 0. -/
noncomputable def cosine_similarity (a b : List ℝ) : ℝ :=
  let dotProduct := ((a.zip b).map (fun p => p.1 * p.2)).sum
  let magnitudeA := Real.sqrt ((a.map (fun x => x * x)).sum)
  let magnitudeB := Real.sqrt ((b.map (fun y => y * y)).sum)
  if magnitudeA = 0 ∨ magnitudeB = 0 then 0
  else dotProduct / (magnitudeA * magnitudeB)

/-- A search result of the vector strategy; its similarity is real valued. -/
structure VecResult where
  id : String
  title : String
  content : String
  similarity : ℝ
  source : String

/-- Descending-similarity comparison on vector results. -/
def vsimGE (a b : VecResult) : Prop := b.similarity ≤ a.similarity

noncomputable instance : DecidableRel vsimGE :=
  fun _ _ => inferInstanceAs (Decidable (_ ≤ _))

instance : IsTotal VecResult vsimGE :=
  ⟨fun a b => (le_total b.similarity a.similarity).elim Or.inl Or.inr⟩

instance : IsTrans VecResult vsimGE :=
  ⟨fun _ _ _ h1 h2 => le_trans h2 h1⟩

/-- The boosted score of the vector strategy: starting from the cosine
similarity, the loop over the query terms adds 0.2 for every term that is a
substring of the lowercased title. -/
def boostedScore (sim : ℝ) (queryTerms : List String) (titleLower : String) : ℝ :=
  queryTerms.foldl (fun acc term =>
    if occursIn term titleLower then acc + 0.2 else acc) sim

/-- Embedding of the document-scoring loop of `search_knowledge_base` once a
query embedding has been obtained.  Documents whose `embedding` field is
missing or empty are skipped (Python tests falsiness of the field); a document
is kept when its boosted score reaches the threshold. -/
noncomputable def vectorRank (kbDocs : List Doc) (queryEmbedding : List ℝ)
    (query : String) (threshold : ℝ) (topK : ℕ) : List VecResult :=
  let queryTerms := pySplit (pyLower query)
  let results := kbDocs.filterMap (fun d =>
    match d.embedding with
    | none => none
    | some [] => none
    | some emb =>
      let boosted := boostedScore (cosine_similarity queryEmbedding emb)
        queryTerms (pyLower d.title)
      if threshold ≤ boosted then
        some ⟨d.id, d.title, d.content, boosted, "knowledge_base"⟩
      else none)
  (results.insertionSort vsimGE).take topK

/-! ## Embedding retry and lexical fallback (app.py lines 560 to 577)

The embedding collaborator is abstracted as an oracle from the attempt index
to an optional embedding vector (none models a raised exception).  The loop in
`search_knowledge_base` runs `max_retries = 3` attempts, sleeping one second
after each failed attempt other than the last; after the last failure it
returns the keyword fallback.  The second and third components returned below
count the embed invocations made and the sleeps performed. -/

/-- Unrolled embedding of the `for attempt in range(max_retries)` retry loop
with `max_retries = 3`. -/
def embedWithRetry (oracle : ℕ → Option (List ℝ)) :
    Option (List ℝ) × ℕ × ℕ :=
  match oracle 0 with
  | some e => (some e, 1, 0)
  | none =>
    match oracle 1 with
    | some e => (some e, 2, 1)
    | none =>
      match oracle 2 with
      | some e => (some e, 3, 2)
      | none => (none, 3, 2)

/-- The body of `search_knowledge_base` after a cache miss: on an embedding
success the vector strategy runs, on final failure the lexical fallback runs. -/
noncomputable def searchUncached (kbDocs : List Doc) (oracle : ℕ → Option (List ℝ))
    (query : String) (topK : ℕ) (threshold : ℝ) :
    List SearchResult ⊕ List VecResult :=
  match (embedWithRetry oracle).1 with
  | none => Sum.inl (fallback_keyword_search kbDocs query topK)
  | some queryEmbedding =>
    Sum.inr (vectorRank kbDocs queryEmbedding query threshold topK)

/-! ## Cache manager: cleanup_cache (app.py lines 84 to 115)

The three module-level cache tables are grouped into one state record.  Each
table is an association list from a key to a pair of creation timestamp (epoch
seconds) and payload; lookups take the first match, so consing a fresh entry
models a dict overwrite.  `research_cache` belongs to the same group of tables
(app.py line 54, filled at lines 370 to 378) but the sweep in `cleanup_cache`
iterates only over `response_cache` and `search_cache`.

Python computes the elapsed time as `(current_time - last_cleanup).seconds`,
the seconds component of a timedelta, which equals the elapsed seconds modulo
86400 for non-negative deltas; the model keeps that modulo faithfully. -/

structure Caches (α β γ : Type) where
  response_cache : List (String × ℕ × α)
  search_cache : List (String × ℕ × β)
  research_cache : List (String × ℕ × γ)
  last_cleanup : ℕ

/-- Embedding of `cleanup_cache()`: a no-op within 600 seconds of the previous
sweep (measured through the timedelta seconds component); otherwise entries
with a creation timestamp strictly below the one-hour cutoff are removed from
the response and search tables, and the sweep time is recorded. -/
def cleanup_cache {α β γ : Type} (now : ℕ) (s : Caches α β γ) : Caches α β γ :=
  if (now - s.last_cleanup) % 86400 < 600 then s
  else
    { response_cache := s.response_cache.filter (fun e => ¬ (e.2.1 < now - 3600))
      search_cache := s.search_cache.filter (fun e => ¬ (e.2.1 < now - 3600))
      research_cache := s.research_cache
      last_cleanup := now }

/-! ## Rate limiter: rate_limit_check (app.py lines 117 to 133)

The tracker `rate_limit_tracker` is a `defaultdict(int)` keyed by the string
`ip : minute-bucket`; it is modelled as a total function from (client, bucket)
pairs to counters, where an absent key and a zero counter coincide, exactly the
observable behaviour of `defaultdict(int)`. -/

/-- The rate-limit tracker state. -/
def Tracker : Type := String × ℕ → ℕ

/-- The initial (empty) tracker. -/
def zeroTracker : Tracker := fun _ => 0

/-- Embedding of the pruning loop: keys whose minute bucket is strictly below
`current_time // 60 - 5` are deleted, that is, reset to the default counter. -/
def pruneTracker (cur : ℕ) (t : Tracker) : Tracker :=
  fun k => if k.2 < cur / 60 - 5 then 0 else t k

/-- Embedding of `rate_limit_check(client_ip, limit)` at epoch time `cur`:
reject when the counter of the current minute bucket has reached the limit;
otherwise increment that counter, prune old buckets and admit. -/
def rate_limit_check (t : Tracker) (ip : String) (cur limit : ℕ) :
    Bool × Tracker :=
  if limit ≤ t (ip, cur / 60) then (false, t)
  else (true, pruneTracker cur
    (fun k => if k = (ip, cur / 60) then t k + 1 else t k))

/-- Runs a sequence of admission checks, one per (client, time) pair, threading
the tracker; returns the number of admitted checks and the final tracker. -/
def runChecks (limit : ℕ) : List (String × ℕ) → Tracker → ℕ × Tracker
  | [], t => (0, t)
  | (ip, cur) :: rest, t =>
    let r := rate_limit_check t ip cur limit
    let next := runChecks limit rest r.2
    ((if r.1 then 1 else 0) + next.1, next.2)

/-! ## Content-addressed cache lookups (app.py lines 551 to 558, 837 to 843)

`get_cache_key` hashes the pair (query, context string) with md5; the model
uses the pair itself as the key, treating the hash as injective.  The repeated
pattern "look up, return the payload if younger than the TTL, otherwise
recompute and overwrite" is captured once and instantiated with the TTL of
each table (300 s for search results, 600 s for composed responses).  The
computation is a thunk so that the Bool in the result can report whether it
was invoked. -/

/-- First-match lookup in an association list, as Python dict lookup. -/
def lookupCache {κ α : Type} [DecidableEq κ] :
    List (κ × ℕ × α) → κ → Option (ℕ × α)
  | [], _ => none
  | (k2, e) :: rest, k => if k = k2 then some e else lookupCache rest k

/-- One cached call: return the stored payload when its age is below the TTL,
otherwise run the computation and store its result under the key. -/
def cachedStep {κ α : Type} [DecidableEq κ] (cache : List (κ × ℕ × α)) (k : κ)
    (now ttl : ℕ) (compute : Unit → α) : α × List (κ × ℕ × α) × Bool :=
  match lookupCache cache k with
  | some (ts, v) =>
    if now - ts < ttl then (v, cache, false)
    else
      let r := compute ()
      (r, (k, now, r) :: cache, true)
  | none =>
    let r := compute ()
    (r, (k, now, r) :: cache, true)

/-- The search-results cache step of `search_knowledge_base`: key built from
the query together with the `top_k` and `threshold` parameters, TTL 300 s. -/
def search_cache_step {α : Type} (cache : List ((String × ℕ × ℚ) × ℕ × α))
    (q : String) (topK : ℕ) (threshold : ℚ) (now : ℕ) (compute : Unit → α) :
    α × List ((String × ℕ × ℚ) × ℕ × α) × Bool :=
  cachedStep cache (q, topK, threshold) now 300 compute

/-- The composed-response cache step of `generate_response`: key built from
the query together with the context-hash/client string, TTL 600 s. -/
def response_cache_step {α : Type} (cache : List ((String × String) × ℕ × α))
    (q context : String) (now : ℕ) (compute : Unit → α) :
    α × List ((String × String) × ℕ × α) × Bool :=
  cachedStep cache (q, context) now 600 compute

/-! ## Learning store: learn_from_interaction (app.py lines 173 to 212)

The `learning_database` dict is modelled as a total function from the query
signature (md5 of the lowercased query, modelled by the lowercased query
itself) to an optional entry.  Fields of an entry that no claim touches
(`key_concepts`, per-response timestamps, client addresses and source lists)
are omitted; `expand_knowledge` mutates the separate `knowledge_expansion`
table, which no retrieval path reads, and `save_learning_database` performs
file output, so neither is modelled. -/

/-- One stored response inside a learning entry. -/
structure ResponseEntry where
  response : String
  feedback_score : ℚ

/-- One entry of `learning_database`. -/
structure LearnEntry where
  query : String
  responses : List ResponseEntry
  total_interactions : ℕ
  success_score : ℚ

/-- The learning database state. -/
def LearnDb : Type := String → Option LearnEntry

/-- Query signature: `hashlib.md5(query.lower())`, modelled as the lowercased
query with the hash treated as injective. -/
def querySignature (q : String) : String := pyLower q

/-- Embedding of `learn_from_interaction(query, response, ...)` restricted to
its effect on `learning_database`: create the entry when absent, append the
response, bump `total_interactions` and cap the stored responses at the last
ten. -/
def learn_from_interaction (db : LearnDb) (q response : String) : LearnDb :=
  let sig := querySignature q
  let base := (db sig).getD
    { query := q, responses := [], total_interactions := 0, success_score := 0 }
  let appended := base.responses ++ [{ response := response, feedback_score := 0 }]
  let capped := if 10 < appended.length then appended.drop (appended.length - 10)
    else appended
  fun s => if s = sig then
      some { base with responses := capped,
                       total_interactions := base.total_interactions + 1 }
    else db s

/-- Runs a sequence of served interactions (query, response) through the
learning store. -/
def runInteractions (db : LearnDb) : List (String × String) → LearnDb
  | [] => db
  | (q, r) :: rest => runInteractions (learn_from_interaction db q r) rest

/-- The interaction counter stored for a signature (0 when the entry is
absent, as created entries start from 0 before the increment). -/
def totalInteractions (db : LearnDb) (sig : String) : ℕ :=
  ((db sig).map LearnEntry.total_interactions).getD 0

/-! ## Offline indexer: build_bm25 (src/train_chat_model.py lines 93 to 126)

Documents enter `build_bm25` as token lists (the `tokens` field produced by
`load_docs`).  The per-document term-frequency dict is modelled as a total
function built by the same fold; its key set is the list of distinct tokens in
first-occurrence order.  Document frequency is the fold that, for each
document, adds one to every key of its term-frequency dict. -/

/-- The term-frequency dict of one document, built by the loop
`for t in tokens: tf[t] = tf.get(t, 0) + 1`. -/
def tfOf (tokens : List String) : String → ℕ :=
  tokens.foldl (fun m t => fun s => if s = t then m s + 1 else m s) (fun _ => 0)

/-- The key set of the term-frequency dict: distinct tokens, first occurrences
first. -/
def tfKeys (tokens : List String) : List String := tokens.dedup

/-- The document length recorded by `build_bm25`: `sum(tf.values())`. -/
def docLen (tokens : List String) : ℕ :=
  ((tfKeys tokens).map (tfOf tokens)).sum

/-- The document-frequency dict, built by the loop
`for t in tf.keys(): df[t] = df.get(t, 0) + 1` over all documents. -/
def dfOf (docs : List (List String)) : String → ℕ :=
  docs.foldl
    (fun m tokens =>
      (tfKeys tokens).foldl (fun m2 t => fun s => if s = t then m2 s + 1 else m2 s) m)
    (fun _ => 0)

/-- The meta block of the serialized BM25 model. -/
structure BMMeta where
  N : ℕ
  avgdl : ℚ
  k1 : ℚ
  b : ℚ

/-- The BM25 model assembled by `build_bm25`: meta data, the
inverse-document-frequency table and the per-document statistics. -/
structure BMModel where
  meta : BMMeta
  idf : String → ℝ
  docLens : List ℕ
  tfs : List (String → ℕ)

/-- Embedding of `build_bm25(docs, k1, b)`.  The idf table is total over all
terms; the Python dict restricts it to terms with nonzero document frequency
without changing any stored value. -/
noncomputable def build_bm25 (docs : List (List String)) (k1 b : ℚ) : BMModel :=
  { meta :=
      { N := docs.length
        avgdl := ((docs.map docLen).sum : ℚ) / (max docs.length 1 : ℕ)
        k1 := k1
        b := b }
    idf := fun t =>
      Real.log (((docs.length : ℝ) - dfOf docs t + 0.5) / (dfOf docs t + 0.5) + 1)
    docLens := docs.map docLen
    tfs := docs.map tfOf }

/-! ## Definitions modelled from the specification text

These definitions follow the wording of the specification, not the code; they
exist to be compared against the embedded code above. -/

/-- Modelled from the spec: the occurrence count of a term across
title + content + category, read as the token count over the three lowercased
whitespace-split fields. -/
def specOccCount (t : String) (d : Doc) : ℕ :=
  (pySplit (pyLower d.title)).count t + (pySplit (pyLower d.content)).count t
    + (pySplit (pyLower d.category)).count t

/-- Modelled from the spec: the lexical score "3 x (title term hits)
+ 2 x (category term hits) + 0.5 x (occurrence count across
title+content+category) + learnedBoost[term], summed over expanded query
terms". -/
def specLexScore (expandedTerms : List String) (boost : String → ℚ) (d : Doc) : ℚ :=
  (expandedTerms.map (fun t =>
    3 * ((pySplit (pyLower d.title)).count t : ℚ)
    + 2 * ((pySplit (pyLower d.category)).count t : ℚ)
    + (1 / 2) * (specOccCount t d : ℚ)
    + boost t)).sum

/-- Modelled from the spec: the persisted learned-boost table after a sequence
of served interactions (each given by its query token list), where every
interaction adds exactly +0.05 to the weight of each of its query tokens,
starting from an empty table. -/
def specLearnedBoost (interactions : List (List String)) (t : String) : ℚ :=
  (1 / 20) * (interactions.countP (fun tokens => tokens.contains t) : ℚ)

/-- Modelled from the spec: the vector-strategy score "cosineSimilarity(query,
document) + 0.2 if any raw query term appears in the title", with a single
0.2 bonus. -/
noncomputable def specVectorScore (queryEmbedding : List ℝ) (query : String)
    (d : Doc) (emb : List ℝ) : ℝ :=
  cosine_similarity queryEmbedding emb
    + (if (pySplit (pyLower query)).any (fun t => occursIn t (pyLower d.title))
       then 0.2 else 0)

/-! ## Concrete fixtures used by counterexamples and witnesses -/

/-- A document whose content holds the query term four times while title and
category avoid it. -/
def docProtein4 : Doc :=
  ⟨"d1", "milk", "protein protein protein protein", "", none⟩

/-- A document whose title is exactly the query term. -/
def docTitleProtein : Doc := ⟨"d2", "protein", "", "", none⟩

/-- A document carrying a unit embedding whose title holds both query terms. -/
def docEmb : Doc := ⟨"v1", "moong dal", "", "", some [1, 0]⟩

/-- A cache state holding a single research entry created at time 0. -/
def staleCaches : Caches ℕ ℕ ℕ := ⟨[], [], [("k", 0, 0)], 0⟩

/-- The single result produced by the vector strategy on the `docEmb` fixture. -/
noncomputable def vecResultEmb : VecResult :=
  ⟨"v1", "moong dal", "", 1.4, "knowledge_base"⟩

/-! ## Helper lemmas -/

theorem pyMin_eq_min (a b : ℚ) : pyMin a b = min a b := by
  simp [pyMin, min_def]

theorem foldl_add_eq_sum {α : Type} (f : α → ℕ) :
    ∀ (l : List α) (a : ℕ), l.foldl (fun acc x => acc + f x) a = a + (l.map f).sum
  | [], a => by simp
  | x :: xs, a => by
    simp only [List.foldl_cons, List.map_cons, List.sum_cons]
    rw [foldl_add_eq_sum f xs (a + f x)]
    ring

theorem keywordScore_eq_sum (terms : List String) (d : Doc) :
    keywordScore terms d = (terms.map (fun term =>
      (if occursIn term (pyLower d.title) then 3 else 0)
      + (if occursIn term (pyLower d.content) then 1 else 0)
      + (if occursIn term (pyLower d.category) then 2 else 0))).sum := by
  unfold keywordScore
  rw [show (fun (score : ℕ) (term : String) =>
      score + (if occursIn term (pyLower d.title) then 3 else 0)
            + (if occursIn term (pyLower d.content) then 1 else 0)
            + (if occursIn term (pyLower d.category) then 2 else 0))
    = fun (score : ℕ) (term : String) =>
      score + ((if occursIn term (pyLower d.title) then 3 else 0)
            + (if occursIn term (pyLower d.content) then 1 else 0)
            + (if occursIn term (pyLower d.category) then 2 else 0)) from by
    funext score term; ring]
  rw [foldl_add_eq_sum]
  simp

theorem mem_fallback_cases {kbDocs : List Doc} {query : String} {topK : ℕ}
    {r : SearchResult} (hr : r ∈ fallback_keyword_search kbDocs query topK) :
    ∃ d ∈ kbDocs, 0 < keywordScore (pySplit (pyLower query)) d
      ∧ r = mkKeywordResult d (keywordScore (pySplit (pyLower query)) d) := by
  unfold fallback_keyword_search at hr
  have h1 := List.mem_of_mem_take hr
  rw [List.mem_insertionSort, List.mem_filterMap] at h1
  obtain ⟨d, hd, heq⟩ := h1
  by_cases hs : 0 < keywordScore (pySplit (pyLower query)) d
  · rw [if_pos hs] at heq
    exact ⟨d, hd, hs, (Option.some_inj.mp heq).symm⟩
  · rw [if_neg hs] at heq
    exact absurd heq (by simp)

theorem pyMin_nonneg {a b : ℚ} (ha : 0 ≤ a) (hb : 0 ≤ b) : 0 ≤ pyMin a b := by
  unfold pyMin; split <;> assumption

theorem pyMin_le_right (a b : ℚ) : pyMin a b ≤ b := by
  unfold pyMin; split
  · assumption
  · exact le_refl b

theorem boostedScore_eq (terms : List String) (titleLower : String) :
    ∀ (sim : ℝ), boostedScore sim terms titleLower
      = sim + 0.2 * (terms.countP (fun t => occursIn t titleLower) : ℝ) := by
  induction terms with
  | nil => intro sim; simp [boostedScore]
  | cons t ts ih =>
    intro sim
    rw [show boostedScore sim (t :: ts) titleLower
        = boostedScore (if occursIn t titleLower then sim + 0.2 else sim) ts titleLower
      from rfl]
    rw [ih, List.countP_cons]
    by_cases h : occursIn t titleLower <;> simp [h] <;> push_cast <;> ring

theorem mem_vectorRank_cases {kbDocs : List Doc} {qe : List ℝ} {q : String}
    {thr : ℝ} {topK : ℕ} {r : VecResult} (hr : r ∈ vectorRank kbDocs qe q thr topK) :
    ∃ d ∈ kbDocs, ∃ emb, d.embedding = some emb ∧ emb ≠ []
      ∧ r = ⟨d.id, d.title, d.content,
             boostedScore (cosine_similarity qe emb) (pySplit (pyLower q))
               (pyLower d.title), "knowledge_base"⟩
      ∧ thr ≤ r.similarity := by
  unfold vectorRank at hr
  have h1 := List.mem_of_mem_take hr
  rw [List.mem_insertionSort, List.mem_filterMap] at h1
  obtain ⟨d, hd, heq⟩ := h1
  rcases hemb : d.embedding with _ | emb
  · rw [hemb] at heq; exact absurd heq (by simp)
  rcases emb with _ | ⟨e, es⟩
  · rw [hemb] at heq; exact absurd heq (by simp)
  rw [hemb] at heq
  simp only at heq
  by_cases hth : thr ≤ boostedScore (cosine_similarity qe (e :: es))
      (pySplit (pyLower q)) (pyLower d.title)
  · rw [if_pos hth] at heq
    refine ⟨d, hd, e :: es, hemb, by simp, (Option.some_inj.mp heq).symm, ?_⟩
    rw [← Option.some_inj.mp heq]
    exact hth
  · rw [if_neg hth] at heq
    exact absurd heq (by simp)

theorem pruneTracker_current (cur : ℕ) (t : Tracker) (ip : String) :
    pruneTracker cur t (ip, cur / 60) = t (ip, cur / 60) := by
  unfold pruneTracker
  rw [if_neg]
  show ¬ ((ip, cur / 60).2 < cur / 60 - 5)
  show ¬ (cur / 60 < cur / 60 - 5)
  omega

theorem runChecks_bucket (ip : String) (m limit : ℕ) :
    ∀ (seq : List (String × ℕ)), (∀ p ∈ seq, p.1 = ip ∧ p.2 / 60 = m) →
    ∀ (t : Tracker) (c : ℕ), t (ip, m) = c → c ≤ limit →
    (runChecks limit seq t).1 = min seq.length (limit - c)
    ∧ (runChecks limit seq t).2 (ip, m) = min (c + seq.length) limit := by
  intro seq
  induction seq with
  | nil =>
    intro _ t c hc hcle
    refine ⟨?_, ?_⟩
    · show (0 : ℕ) = min 0 (limit - c)
      omega
    · show t (ip, m) = min (c + 0) limit
      rw [hc]; omega
  | cons p rest ih =>
    intro hseq t c hc hcle
    obtain ⟨hip, hbucket⟩ := hseq p (List.mem_cons_self p rest)
    obtain ⟨ip2, cur⟩ := p
    simp only at hip hbucket
    have hrest := fun p hp => hseq p (List.mem_cons_of_mem _ hp)
    subst hip
    simp only [runChecks]
    unfold rate_limit_check
    rw [hbucket, hc]
    by_cases hfull : limit ≤ c
    · rw [if_pos hfull]
      obtain ⟨h1, h2⟩ := ih hrest t c hc hcle
      refine ⟨?_, ?_⟩
      · show 0 + (runChecks limit rest t).1 = min (rest.length + 1) (limit - c)
        rw [h1]; omega
      · show (runChecks limit rest t).2 (ip2, m) = min (c + (rest.length + 1)) limit
        rw [h2]; omega
    · rw [if_neg hfull]
      have hc2 : pruneTracker cur
          (fun k => if k = (ip2, m) then t k + 1 else t k) (ip2, m) = c + 1 := by
        unfold pruneTracker
        show (if (ip2, m).2 < cur / 60 - 5 then 0
          else if ((ip2, m) : String × ℕ) = (ip2, m) then t (ip2, m) + 1
          else t (ip2, m)) = c + 1
        rw [if_neg (show ¬ ((ip2, m).2 < cur / 60 - 5) from by
          show ¬ (m < cur / 60 - 5); omega), if_pos rfl, hc]
      obtain ⟨h1, h2⟩ :=
        ih hrest (pruneTracker cur (fun k => if k = (ip2, m) then t k + 1 else t k))
          (c + 1) hc2 (by omega)
      refine ⟨?_, ?_⟩
      · show 1 + (runChecks limit rest (pruneTracker cur
            (fun k => if k = (ip2, m) then t k + 1 else t k))).1
            = min (rest.length + 1) (limit - c)
        rw [h1]; omega
      · show (runChecks limit rest (pruneTracker cur
            (fun k => if k = (ip2, m) then t k + 1 else t k))).2 (ip2, m)
            = min (c + (rest.length + 1)) limit
        rw [h2]; omega

theorem runChecks_outside (m limit : ℕ) :
    ∀ (seq : List (String × ℕ)), (∀ p ∈ seq, p.2 / 60 = m) →
    ∀ (t : Tracker), (∀ k, k.2 ≠ m → t k = 0) →
    ∀ k, k.2 ≠ m → (runChecks limit seq t).2 k = 0 := by
  intro seq
  induction seq with
  | nil => intro _ t ht k hk; exact ht k hk
  | cons p rest ih =>
    intro hseq t ht k hk
    obtain ⟨ip2, cur⟩ := p
    have hbucket : cur / 60 = m := hseq (ip2, cur) (List.mem_cons_self _ rest)
    have hrest := fun p hp => hseq p (List.mem_cons_of_mem _ hp)
    simp only [runChecks]
    apply ih hrest
    · intro k2 hk2
      unfold rate_limit_check
      split
      · exact ht k2 hk2
      · show pruneTracker cur
          (fun k => if k = (ip2, cur / 60) then t k + 1 else t k) k2 = 0
        unfold pruneTracker
        split
        · rfl
        · have hne : k2 ≠ (ip2, cur / 60) := by
            intro hkeq
            apply hk2
            rw [hkeq]
            exact hbucket
          show (if k2 = (ip2, cur / 60) then t k2 + 1 else t k2) = 0
          rw [if_neg hne]
          exact ht k2 hk2
    · exact hk

theorem addKeyFold_apply (keys : List String) (hnd : keys.Nodup) :
    ∀ (m : String → ℕ) (s : String),
    (keys.foldl (fun m2 t => fun s2 => if s2 = t then m2 s2 + 1 else m2 s2) m) s
      = m s + (if s ∈ keys then 1 else 0) := by
  induction keys with
  | nil => intro m s; simp
  | cons k ks ih =>
    intro m s
    obtain ⟨hknotin, hksnd⟩ := List.nodup_cons.mp hnd
    rw [List.foldl_cons, ih hksnd]
    by_cases hs : s = k
    · subst hs
      have : s ∉ ks := hknotin
      simp [this]
    · simp [hs, List.mem_cons]

theorem tfFold_apply :
    ∀ (tokens : List String) (m : String → ℕ) (s : String),
    (tokens.foldl (fun m2 t => fun s2 => if s2 = t then m2 s2 + 1 else m2 s2) m) s
      = m s + tokens.count s := by
  intro tokens
  induction tokens with
  | nil => intro m s; simp
  | cons t ts ih =>
    intro m s
    rw [List.foldl_cons, ih, List.count_cons]
    by_cases h : s = t
    · simp [h]; omega
    · have h2 : ¬ (t = s) := fun hh => h hh.symm
      simp [h, h2]

theorem tfOf_eq_count (tokens : List String) (s : String) :
    tfOf tokens s = tokens.count s := by
  unfold tfOf
  rw [tfFold_apply]
  omega

theorem docLen_eq_length (tokens : List String) : docLen tokens = tokens.length := by
  unfold docLen tfKeys
  rw [List.map_congr_left (fun s hs => tfOf_eq_count tokens s)]
  exact List.sum_map_count_dedup_eq_length tokens

theorem dfFold_apply :
    ∀ (docs : List (List String)) (m : String → ℕ) (t : String),
    (docs.foldl
      (fun m2 tokens =>
        (tfKeys tokens).foldl
          (fun m3 tk => fun s => if s = tk then m3 s + 1 else m3 s) m2) m) t
      = m t + docs.countP (fun tokens => decide (t ∈ tokens)) := by
  intro docs
  induction docs with
  | nil => intro m t; simp
  | cons tokens rest ih =>
    intro m t
    rw [List.foldl_cons, ih, List.countP_cons,
      addKeyFold_apply (tfKeys tokens) (List.nodup_dedup tokens) m t]
    have hmem : (t ∈ tfKeys tokens) ↔ t ∈ tokens := List.mem_dedup
    by_cases hin : t ∈ tokens
    · rw [if_pos (hmem.mpr hin)]
      simp [hin]
      omega
    · rw [if_neg (fun hc => hin (hmem.mp hc))]
      simp [hin]

theorem dfOf_eq_countP (docs : List (List String)) (t : String) :
    dfOf docs t = docs.countP (fun tokens => decide (t ∈ tokens)) := by
  unfold dfOf
  rw [dfFold_apply]
  omega

theorem totalInteractions_learn (db : LearnDb) (q resp : String) :
    totalInteractions (learn_from_interaction db q resp) (querySignature q)
      = totalInteractions db (querySignature q) + 1 := by
  unfold totalInteractions learn_from_interaction
  rw [if_pos rfl]
  cases hdb : db (querySignature q) <;> simp [hdb]

theorem totalInteractions_step_le (db : LearnDb) (q resp : String) (s : String) :
    totalInteractions db s
      ≤ totalInteractions (learn_from_interaction db q resp) s := by
  unfold totalInteractions learn_from_interaction
  by_cases hs : s = querySignature q
  · rw [if_pos hs, hs]
    cases hdb : db (querySignature q) <;> simp [hdb]
  · rw [if_neg hs]

theorem totalInteractions_run_le (l : List (String × String)) :
    ∀ (db : LearnDb) (s : String),
    totalInteractions db s ≤ totalInteractions (runInteractions db l) s := by
  induction l with
  | nil => intro db s; exact le_refl _
  | cons p rest ih =>
    intro db s
    obtain ⟨q, resp⟩ := p
    exact le_trans (totalInteractions_step_le db q resp s)
      (ih (learn_from_interaction db q resp) s)

theorem cosine_unit_pair : cosine_similarity [(1 : ℝ), 0] [1, 0] = 1 := by
  unfold cosine_similarity
  simp only [List.zip_cons_cons, List.zip_nil_right, List.map_cons, List.map_nil,
    List.sum_cons, List.sum_nil]
  norm_num [Real.sqrt_one]

theorem boosted_unit_pair :
    boostedScore 1 ["moong", "dal"] "moong dal" = 1.4 := by
  have h1 : occursIn "moong" "moong dal" = true := by decide
  have h2 : occursIn "dal" "moong dal" = true := by decide
  show (if occursIn "dal" "moong dal" = true
    then (if occursIn "moong" "moong dal" = true then (1 : ℝ) + 0.2 else 1) + 0.2
    else (if occursIn "moong" "moong dal" = true then (1 : ℝ) + 0.2 else 1)) = 1.4
  rw [h1, h2]
  norm_num

theorem vectorRank_docEmb :
    vectorRank [docEmb] [(1 : ℝ), 0] "moong dal" (1 / 2) 3 = [vecResultEmb] := by
  have hlow : pyLower "moong dal" = "moong dal" := by decide
  have hterms : pySplit (pyLower "moong dal") = ["moong", "dal"] := by decide
  have hsim : boostedScore (cosine_similarity [(1 : ℝ), 0] [1, 0])
      (pySplit (pyLower "moong dal")) (pyLower "moong dal") = 1.4 := by
    rw [cosine_unit_pair, hterms, hlow]
    exact boosted_unit_pair
  unfold vectorRank
  simp only [docEmb, List.filterMap_cons, List.filterMap_nil]
  rw [hsim]
  rw [if_pos (by norm_num : (1 : ℝ) / 2 ≤ 1.4)]
  simp [List.insertionSort, List.orderedInsert, vecResultEmb]

theorem cosine_zero_of_zero_magnitude (a b : List ℝ)
    (h : Real.sqrt ((a.map (fun x => x * x)).sum) = 0
      ∨ Real.sqrt ((b.map (fun y => y * y)).sum) = 0) :
    cosine_similarity a b = 0 := by
  unfold cosine_similarity
  rw [if_pos h]

/-! ## Claims -/

/-- C1 (counterexample): the specified lexical formula fails on the code.  For
the query "protein" (a term with no synonym entry, so its expansion is itself,
and an empty learned table, so its boost is 0) against a document whose content
holds the term four times, the specification predicts score
0.5 x 4 = 2 and similarity min(2/10, 1), while the code scores the substring
hit once (+1) and returns min(1/10, 1); the two differ. -/
theorem lexical_spec_score_counterexample :
    fallback_keyword_search [docProtein4] "protein" 3
        = [mkKeywordResult docProtein4 1]
    ∧ specLexScore ["protein"] (fun _ => 0) docProtein4 = 2
    ∧ (mkKeywordResult docProtein4 1).similarity
        ≠ pyMin (specLexScore ["protein"] (fun _ => 0) docProtein4 / 10) 1 := by
  have h1 : (pySplit (pyLower docProtein4.title)).count "protein" = 0 := by decide
  have h2 : (pySplit (pyLower docProtein4.content)).count "protein" = 4 := by decide
  have h3 : (pySplit (pyLower docProtein4.category)).count "protein" = 0 := by decide
  have hspec : specLexScore ["protein"] (fun _ => 0) docProtein4 = 2 := by
    simp only [specLexScore, specOccCount, h1, h2, h3, List.map_cons,
      List.map_nil, List.sum_cons, List.sum_nil]
    push_cast
    norm_num
  refine ⟨rfl, hspec, ?_⟩
  rw [hspec]
  show pyMin (((1 : ℕ) : ℚ) / 10) 1 ≠ pyMin (2 / 10) 1
  unfold pyMin
  rw [if_pos (by push_cast; norm_num : ((1 : ℕ) : ℚ) / 10 ≤ 1),
    if_pos (by norm_num : (2 : ℚ) / 10 ≤ 1)]
  push_cast
  norm_num

/-- C1 (amended claim): every result returned by the lexical strategy comes
from a corpus document with positive keyword score, where the score adds, per
raw lowercased whitespace-split query term (no synonym expansion, no learned
boost, no occurrence counting), 3 for a title substring hit, 1 for a content
substring hit and 2 for a category substring hit; the returned similarity is
min(score/10, 1); zero-score documents are always excluded (the function takes
no threshold). -/
theorem fallback_keyword_search_characterization
    (kbDocs : List Doc) (query : String) (topK : ℕ) (r : SearchResult)
    (hr : r ∈ fallback_keyword_search kbDocs query topK) :
    ∃ d ∈ kbDocs, 0 < keywordScore (pySplit (pyLower query)) d
      ∧ r = mkKeywordResult d (keywordScore (pySplit (pyLower query)) d)
      ∧ r.similarity
          = pyMin ((keywordScore (pySplit (pyLower query)) d : ℚ) / 10) 1 := by
  obtain ⟨d, hd, hpos, heq⟩ := mem_fallback_cases hr
  exact ⟨d, hd, hpos, heq, by rw [heq]; rfl⟩

/-- Witness for C1: the characterization applied to the concrete fixture. -/
theorem fallback_keyword_search_characterization_witness :
    ∃ d ∈ [docProtein4], 0 < keywordScore (pySplit (pyLower "protein")) d
      ∧ mkKeywordResult docProtein4 1
          = mkKeywordResult d (keywordScore (pySplit (pyLower "protein")) d)
      ∧ (mkKeywordResult docProtein4 1).similarity
          = pyMin ((keywordScore (pySplit (pyLower "protein")) d : ℚ) / 10) 1 :=
  fallback_keyword_search_characterization [docProtein4] "protein" 3
    (mkKeywordResult docProtein4 1) (List.mem_singleton.mpr rfl)

/-- C2: within one minute bucket the limiter admits exactly
min(number of checks, limit) checks, so exactly `limit` of them when at least
`limit` arrive; once `limit` checks of a bucket have been admitted, any further
check in the same bucket is rejected; and a check in a fresh bucket (all
counters having started from zero) is admitted regardless of how many checks
any earlier bucket absorbed. -/
theorem rate_limit_window (ip : String) (m limit : ℕ)
    (seq : List (String × ℕ)) (hseq : ∀ p ∈ seq, p.1 = ip ∧ p.2 / 60 = m)
    (t0 : Tracker) (h0 : t0 (ip, m) = 0) :
    (runChecks limit seq t0).1 = min seq.length limit
    ∧ (∀ cur2, cur2 / 60 = m → limit ≤ seq.length →
        (rate_limit_check (runChecks limit seq t0).2 ip cur2 limit).1 = false)
    ∧ (∀ (seq2 : List (String × ℕ)), (∀ p ∈ seq2, p.2 / 60 = m) →
        ∀ ip2 cur2, cur2 / 60 ≠ m → 1 ≤ limit →
        (rate_limit_check (runChecks limit seq2 zeroTracker).2 ip2 cur2 limit).1
          = true) := by
  obtain ⟨h1, h2⟩ := runChecks_bucket ip m limit seq hseq t0 0 h0 (Nat.zero_le _)
  refine ⟨by rw [h1]; omega, ?_, ?_⟩
  · intro cur2 hcur2 hlen
    unfold rate_limit_check
    rw [hcur2, h2, if_pos (by omega)]
  · intro seq2 hseq2 ip2 cur2 hcur2 hlim
    have hz := runChecks_outside m limit seq2 hseq2 zeroTracker
      (fun k hk => rfl) (ip2, cur2 / 60) hcur2
    unfold rate_limit_check
    rw [hz, if_neg (by omega)]

/-- Witness for C2: two checks against limit 1 in bucket 0 admit exactly one;
the follow-up check in the same bucket is rejected; a check in bucket 2 after
traffic in bucket 0 is admitted. -/
theorem rate_limit_window_witness :
    (runChecks 1 [("a", 0), ("a", 30)] zeroTracker).1 = min 2 1
    ∧ (rate_limit_check (runChecks 1 [("a", 0), ("a", 30)] zeroTracker).2
        "a" 59 1).1 = false
    ∧ (rate_limit_check (runChecks 1 [("a", 10)] zeroTracker).2 "b" 120 1).1
        = true := by
  have h := rate_limit_window "a" 0 1 [("a", 0), ("a", 30)]
    (by decide) zeroTracker rfl
  exact ⟨h.1, h.2.1 59 (by decide) (by decide),
    h.2.2 [("a", 10)] (by decide) "b" 120 (by decide) (by decide)⟩

/-- C3 (counterexample): no +0.05 learned boost feeds back into lexical
scoring.  After one served interaction whose query token is "protein", the
specification predicts the lexical similarity
min((base + 0.05)/10, 1) for a document whose title matches (base = 3), but
the code returns min(3/10, 1) unchanged: the lexical score has no boost term
and `learn_from_interaction` maintains no term-weight table. -/
theorem learned_boost_counterexample :
    fallback_keyword_search [docTitleProtein] "protein" 3
        = [mkKeywordResult docTitleProtein 3]
    ∧ specLearnedBoost [["protein"]] "protein" = 1 / 20
    ∧ (mkKeywordResult docTitleProtein 3).similarity
        ≠ pyMin (((keywordScore (pySplit (pyLower "protein")) docTitleProtein : ℚ)
            + specLearnedBoost [["protein"]] "protein") / 10) 1 := by
  have hb : specLearnedBoost [["protein"]] "protein" = 1 / 20 := by
    have hc : ([["protein"]].countP (fun tokens => tokens.contains "protein")) = 1 :=
      by decide
    simp only [specLearnedBoost, hc]
    norm_num
  have hk : keywordScore (pySplit (pyLower "protein")) docTitleProtein = 3 := by
    decide
  refine ⟨rfl, hb, ?_⟩
  rw [hb, hk]
  show pyMin (((3 : ℕ) : ℚ) / 10) 1 ≠ pyMin (((3 : ℕ) + 1 / 20 : ℚ) / 10) 1
  unfold pyMin
  rw [if_pos (by push_cast; norm_num : ((3 : ℕ) : ℚ) / 10 ≤ 1),
    if_pos (by push_cast; norm_num : (((3 : ℕ) : ℚ) + 1 / 20) / 10 ≤ 1)]
  push_cast
  norm_num

/-- C3 (amended claim): what `learn_from_interaction` increments on every
served interaction is the per-query `total_interactions` counter, by exactly
one, and these counters are monotonically non-decreasing over any sequence of
interactions; the lexical scoring strategy reads no learned table at all: its
score is exactly the per-term 3/1/2 substring-hit sum. -/
theorem learning_counts_not_boosts :
    (∀ (db : LearnDb) (q resp : String),
      totalInteractions (learn_from_interaction db q resp) (querySignature q)
        = totalInteractions db (querySignature q) + 1)
    ∧ (∀ (db : LearnDb) (l : List (String × String)) (s : String),
      totalInteractions db s ≤ totalInteractions (runInteractions db l) s)
    ∧ (∀ (terms : List String) (d : Doc),
      keywordScore terms d = (terms.map (fun term =>
        (if occursIn term (pyLower d.title) then 3 else 0)
        + (if occursIn term (pyLower d.content) then 1 else 0)
        + (if occursIn term (pyLower d.category) then 2 else 0))).sum) :=
  ⟨totalInteractions_learn,
   fun db l s => totalInteractions_run_le l db s,
   keywordScore_eq_sum⟩

/-- Witness for C3: the amended claim evaluated at one concrete interaction
and one concrete document. -/
theorem learning_counts_not_boosts_witness :
    totalInteractions
        (learn_from_interaction (fun _ => none) "protein rich food" "eat dal")
        (querySignature "protein rich food")
      = totalInteractions (fun _ => none) (querySignature "protein rich food") + 1
    ∧ totalInteractions (fun _ => none) "x"
        ≤ totalInteractions
            (runInteractions (fun _ => none) [("protein rich food", "eat dal")]) "x"
    ∧ keywordScore ["protein"] docProtein4
        = ([(fun term =>
            (if occursIn term (pyLower docProtein4.title) then 3 else 0)
            + (if occursIn term (pyLower docProtein4.content) then 1 else 0)
            + (if occursIn term (pyLower docProtein4.category) then 2 else 0))
              "protein"]).sum :=
  ⟨learning_counts_not_boosts.1 (fun _ => none) "protein rich food" "eat dal",
   learning_counts_not_boosts.2.1 (fun _ => none)
     [("protein rich food", "eat dal")] "x",
   learning_counts_not_boosts.2.2 ["protein"] docProtein4⟩

/-- C4 (counterexample): the sweep does not cover the research table.  Two
hours after the previous sweep the cleanup runs (it records the new sweep
time), yet a research entry created at time 0, older than the one-hour cutoff,
is still present afterwards. -/
theorem cache_sweep_counterexample :
    (cleanup_cache 7200 staleCaches).last_cleanup = 7200
    ∧ ("k", 0, 0) ∈ (cleanup_cache 7200 staleCaches).research_cache
    ∧ (0 : ℕ) < 7200 - 3600 := by
  refine ⟨?_, ?_, by norm_num⟩
  · show (cleanup_cache 7200 staleCaches).last_cleanup = 7200
    rfl
  · show ("k", 0, 0) ∈ (cleanup_cache 7200 staleCaches).research_cache
    exact List.mem_singleton.mpr rfl

/-- C4 (amended claim): the sweep is a no-op within ten minutes of the
previous sweep; when it runs, it removes exactly the entries older than the
one-hour cutoff from the response and search tables, leaves younger entries
of those tables in place, records the sweep time, and leaves the research
table untouched. -/
theorem cleanup_cache_behaviour {α β γ : Type} (now : ℕ) (s : Caches α β γ) :
    (now - s.last_cleanup < 600 → cleanup_cache now s = s)
    ∧ (600 ≤ (now - s.last_cleanup) % 86400 →
        (∀ e, e ∈ (cleanup_cache now s).response_cache ↔
          e ∈ s.response_cache ∧ ¬ (e.2.1 < now - 3600))
        ∧ (∀ e, e ∈ (cleanup_cache now s).search_cache ↔
          e ∈ s.search_cache ∧ ¬ (e.2.1 < now - 3600))
        ∧ (cleanup_cache now s).research_cache = s.research_cache
        ∧ (cleanup_cache now s).last_cleanup = now) := by
  constructor
  · intro h
    unfold cleanup_cache
    rw [if_pos]
    calc (now - s.last_cleanup) % 86400
        ≤ now - s.last_cleanup := Nat.mod_le _ _
      _ < 600 := h
  · intro h
    unfold cleanup_cache
    rw [if_neg (by omega)]
    refine ⟨?_, ?_, rfl, rfl⟩
    · intro e
      simp [List.mem_filter]
    · intro e
      simp [List.mem_filter]

/-- Witness for C4: the amended claim evaluated on the concrete cache state. -/
theorem cleanup_cache_behaviour_witness :
    cleanup_cache 100 staleCaches = staleCaches
    ∧ (cleanup_cache 7200 staleCaches).research_cache
        = staleCaches.research_cache := by
  refine ⟨(cleanup_cache_behaviour 100 staleCaches).1 (by decide), ?_⟩
  exact ((cleanup_cache_behaviour 7200 staleCaches).2 (by decide)).2.2.1

/-- C5 (counterexample): the title bonus is added once per matching query
term, not once overall.  With query "moong dal" and a title holding both
terms, the specification predicts cosine + 0.2 = 1.2 while the code returns
cosine + 0.2 + 0.2 = 1.4. -/
theorem vector_bonus_counterexample :
    ∃ r ∈ vectorRank [docEmb] [(1 : ℝ), 0] "moong dal" (1 / 2) 3,
      specVectorScore [(1 : ℝ), 0] "moong dal" docEmb [1, 0] = 1.2
      ∧ r.similarity = 1.4
      ∧ r.similarity ≠ specVectorScore [(1 : ℝ), 0] "moong dal" docEmb [1, 0] := by
  have hspec : specVectorScore [(1 : ℝ), 0] "moong dal" docEmb [1, 0] = 1.2 := by
    unfold specVectorScore
    rw [cosine_unit_pair,
      if_pos (show ((pySplit (pyLower "moong dal")).any
        (fun t => occursIn t (pyLower docEmb.title))) = true from by decide)]
    norm_num
  refine ⟨vecResultEmb,
    by rw [vectorRank_docEmb]; exact List.mem_singleton.mpr rfl,
    hspec, rfl, ?_⟩
  rw [hspec]
  show (1.4 : ℝ) ≠ 1.2
  norm_num

/-- C5 (amended claim): under the vector strategy, every returned result comes
from a document with a non-empty embedding (others are skipped), its
similarity equals the cosine similarity plus 0.2 for each raw query term that
appears in the title (so k matching terms add 0.2 x k), and it reaches the
threshold; cosineSimilarity returns 0 whenever either magnitude is 0 and
dot/(a-magnitude x b-magnitude) otherwise. -/
theorem vector_scoring_characterization :
    (∀ (kbDocs : List Doc) (qe : List ℝ) (q : String) (thr : ℝ) (k : ℕ)
        (r : VecResult), r ∈ vectorRank kbDocs qe q thr k →
      ∃ d ∈ kbDocs, ∃ emb, d.embedding = some emb ∧ emb ≠ []
        ∧ r.similarity = cosine_similarity qe emb
            + 0.2 * ((pySplit (pyLower q)).countP
                (fun t => occursIn t (pyLower d.title)) : ℝ)
        ∧ thr ≤ r.similarity)
    ∧ (∀ a b : List ℝ,
        (Real.sqrt ((a.map fun x => x * x).sum) = 0
          ∨ Real.sqrt ((b.map fun y => y * y).sum) = 0) →
        cosine_similarity a b = 0) := by
  constructor
  · intro kbDocs qe q thr k r hr
    obtain ⟨d, hd, emb, hemb, hne, heq, hth⟩ := mem_vectorRank_cases hr
    refine ⟨d, hd, emb, hemb, hne, ?_, hth⟩
    rw [heq]
    show boostedScore (cosine_similarity qe emb) (pySplit (pyLower q))
      (pyLower d.title) = _
    rw [boostedScore_eq]
  · exact cosine_zero_of_zero_magnitude

/-- Witness for C5: the characterization applied to the concrete fixture and
to a zero vector. -/
theorem vector_scoring_characterization_witness :
    (∃ d ∈ [docEmb], ∃ emb, d.embedding = some emb ∧ emb ≠ []
      ∧ vecResultEmb.similarity = cosine_similarity [(1 : ℝ), 0] emb
          + 0.2 * ((pySplit (pyLower "moong dal")).countP
              (fun t => occursIn t (pyLower d.title)) : ℝ)
      ∧ (1 : ℝ) / 2 ≤ vecResultEmb.similarity)
    ∧ cosine_similarity [(0 : ℝ)] [1] = 0 := by
  constructor
  · exact vector_scoring_characterization.1 [docEmb] [(1 : ℝ), 0] "moong dal"
      (1 / 2) 3 vecResultEmb
      (by rw [vectorRank_docEmb]; exact List.mem_singleton.mpr rfl)
  · exact vector_scoring_characterization.2 [(0 : ℝ)] [1]
      (Or.inl (by simp))

/-- C6 (counterexample): a vector-strategy similarity can exceed 1.  A
document whose embedding equals the query embedding (cosine 1) and whose title
holds both query terms is returned with similarity 1.4. -/
theorem similarity_above_one_counterexample :
    ∃ r ∈ vectorRank [docEmb] [(1 : ℝ), 0] "moong dal" (1 / 2) 3,
      1 < r.similarity := by
  refine ⟨vecResultEmb,
    by rw [vectorRank_docEmb]; exact List.mem_singleton.mpr rfl, ?_⟩
  show (1 : ℝ) < 1.4
  norm_num

/-- C6 (amended claim): lexical-strategy similarities always lie in [0, 1];
vector-strategy similarities are only bounded below by the threshold — the
boosted cosine score is never clamped above and can exceed 1. -/
theorem similarity_range_by_strategy :
    (∀ (kbDocs : List Doc) (q : String) (k : ℕ) (r : SearchResult),
      r ∈ fallback_keyword_search kbDocs q k →
        0 ≤ r.similarity ∧ r.similarity ≤ 1)
    ∧ (∀ (kbDocs : List Doc) (qe : List ℝ) (q : String) (thr : ℝ) (k : ℕ)
        (r : VecResult), r ∈ vectorRank kbDocs qe q thr k →
        thr ≤ r.similarity) := by
  constructor
  · intro kbDocs q k r hr
    obtain ⟨d, hd, hpos, heq⟩ := mem_fallback_cases hr
    rw [heq]
    constructor
    · show 0 ≤ pyMin ((keywordScore (pySplit (pyLower q)) d : ℚ) / 10) 1
      exact pyMin_nonneg (div_nonneg (Nat.cast_nonneg _) (by norm_num))
        (by norm_num)
    · show pyMin ((keywordScore (pySplit (pyLower q)) d : ℚ) / 10) 1 ≤ 1
      exact pyMin_le_right _ _
  · intro kbDocs qe q thr k r hr
    obtain ⟨d, hd, emb, hemb, hne, heq, hth⟩ := mem_vectorRank_cases hr
    exact hth

/-- Witness for C6: the bounds evaluated on the concrete fixtures. -/
theorem similarity_range_by_strategy_witness :
    (0 ≤ (mkKeywordResult docProtein4 1).similarity
      ∧ (mkKeywordResult docProtein4 1).similarity ≤ 1)
    ∧ (1 : ℝ) / 2 ≤ vecResultEmb.similarity := by
  constructor
  · exact similarity_range_by_strategy.1 [docProtein4] "protein" 3
      (mkKeywordResult docProtein4 1) (List.mem_singleton.mpr rfl)
  · exact similarity_range_by_strategy.2 [docEmb] [(1 : ℝ), 0] "moong dal"
      (1 / 2) 3 vecResultEmb
      (by rw [vectorRank_docEmb]; exact List.mem_singleton.mpr rfl)

/-- C7: a query that misses a cache table stores its computed payload; an
identical query within the TTL (300 s for search results, 600 s for composed
responses) returns exactly that stored payload, leaves the table unchanged and
does not invoke the computation (the invocation flag is false and the second
computation argument is arbitrary). -/
theorem cache_idempotence {α β : Type}
    (cache : List ((String × ℕ × ℚ) × ℕ × α)) (q : String) (topK : ℕ) (thr : ℚ)
    (t0 t1 : ℕ) (compute1 compute2 : Unit → α)
    (rcache : List ((String × String) × ℕ × β)) (q2 ctx : String) (t2 t3 : ℕ)
    (gen1 gen2 : Unit → β)
    (hm1 : lookupCache cache (q, topK, thr) = none)
    (hm2 : lookupCache rcache (q2, ctx) = none)
    (h1 : t1 - t0 < 300) (h2 : t3 - t2 < 600) :
    (search_cache_step cache q topK thr t0 compute1
        = (compute1 (), ((q, topK, thr), t0, compute1 ()) :: cache, true)
      ∧ search_cache_step (((q, topK, thr), t0, compute1 ()) :: cache)
          q topK thr t1 compute2
        = (compute1 (), ((q, topK, thr), t0, compute1 ()) :: cache, false))
    ∧ (response_cache_step rcache q2 ctx t2 gen1
        = (gen1 (), ((q2, ctx), t2, gen1 ()) :: rcache, true)
      ∧ response_cache_step (((q2, ctx), t2, gen1 ()) :: rcache) q2 ctx t3 gen2
        = (gen1 (), ((q2, ctx), t2, gen1 ()) :: rcache, false)) := by
  refine ⟨⟨?_, ?_⟩, ?_, ?_⟩
  · unfold search_cache_step cachedStep
    rw [hm1]
  · unfold search_cache_step cachedStep lookupCache
    rw [if_pos rfl]
    simp only [h1, if_true]
  · unfold response_cache_step cachedStep
    rw [hm2]
  · unfold response_cache_step cachedStep lookupCache
    rw [if_pos rfl]
    simp only [h2, if_true]

/-- Witness for C7: both cache tables exercised on concrete entries; the
second call returns the first payload even though its computation argument
would produce a different value. -/
theorem cache_idempotence_witness :
    (search_cache_step ([] : List ((String × ℕ × ℚ) × ℕ × ℕ)) "q" 3 0 10
        (fun _ => 5)
      = (5, (("q", 3, 0), 10, 5) :: [], true)
      ∧ search_cache_step [(("q", 3, 0), 10, 5)] "q" 3 0 100 (fun _ => 99)
      = (5, (("q", 3, 0), 10, 5) :: [], false))
    ∧ (response_cache_step ([] : List ((String × String) × ℕ × ℕ)) "q" "c" 20
        (fun _ => 7)
      = (7, (("q", "c"), 20, 7) :: [], true)
      ∧ response_cache_step [(("q", "c"), 20, 7)] "q" "c" 500 (fun _ => 42)
      = (7, (("q", "c"), 20, 7) :: [], false)) :=
  cache_idempotence [] "q" 3 0 10 100 (fun _ => 5) (fun _ => 99)
    [] "q" "c" 20 500 (fun _ => 7) (fun _ => 42)
    rfl rfl (by decide) (by decide)

/-- C8: when the embedding oracle fails on all of the three attempts of the
retry loop, the engine makes exactly 3 embedding invocations with a one-second
sleep after each failure but the last (2 sleeps, one between each pair of
attempts), and the caller receives the lexical strategy ranked result list,
sorted by descending similarity, rather than an error. -/
theorem embedding_failure_falls_back (oracle : ℕ → Option (List ℝ))
    (h0 : oracle 0 = none) (h1 : oracle 1 = none) (h2 : oracle 2 = none)
    (kbDocs : List Doc) (q : String) (topK : ℕ) (thr : ℝ) :
    embedWithRetry oracle = (none, 3, 2)
    ∧ searchUncached kbDocs oracle q topK thr
        = Sum.inl (fallback_keyword_search kbDocs q topK)
    ∧ List.Sorted simGE (fallback_keyword_search kbDocs q topK) := by
  have he : embedWithRetry oracle = (none, 3, 2) := by
    unfold embedWithRetry
    rw [h0, h1, h2]
  refine ⟨he, ?_, ?_⟩
  · unfold searchUncached
    rw [he]
  · unfold fallback_keyword_search
    exact (List.sorted_insertionSort simGE _).sublist (List.take_sublist _ _)

/-- Witness for C8: a concrete always-failing oracle against a one-document
corpus. -/
theorem embedding_failure_falls_back_witness :
    embedWithRetry (fun _ => none) = (none, 3, 2)
    ∧ searchUncached [docProtein4] (fun _ => none) "protein" 3 (1 / 2)
        = Sum.inl (fallback_keyword_search [docProtein4] "protein" 3)
    ∧ List.Sorted simGE (fallback_keyword_search [docProtein4] "protein" 3) :=
  embedding_failure_falls_back (fun _ => none) rfl rfl rfl
    [docProtein4] "protein" 3 (1 / 2)

/-- C9: the offline indexer records document count N, and for every term t an
idf of ln((N - df(t) + 0.5)/(df(t) + 0.5) + 1) where df(t) is the number of
documents whose token list holds t; the average document length is the mean
of the per-document token counts, and 0 for an empty corpus. -/
theorem build_bm25_statistics (docs : List (List String)) (k1 b : ℚ) (t : String) :
    (build_bm25 docs k1 b).idf t
      = Real.log ((((docs.length : ℝ)
            - (docs.countP (fun tokens => decide (t ∈ tokens)) : ℝ) + 0.5)
          / ((docs.countP (fun tokens => decide (t ∈ tokens)) : ℝ) + 0.5)) + 1)
    ∧ (build_bm25 docs k1 b).meta.avgdl
      = (if docs.length = 0 then 0
         else ((docs.map List.length).sum : ℚ) / (docs.length : ℚ))
    ∧ (build_bm25 docs k1 b).meta.N = docs.length := by
  refine ⟨?_, ?_, rfl⟩
  · show Real.log (((docs.length : ℝ) - (dfOf docs t : ℝ) + 0.5)
        / ((dfOf docs t : ℝ) + 0.5) + 1) = _
    rw [dfOf_eq_countP]
  · show ((docs.map docLen).sum : ℚ) / ((max docs.length 1 : ℕ) : ℚ) = _
    rw [List.map_congr_left (fun tokens _ => docLen_eq_length tokens)]
    by_cases h : docs.length = 0
    · rw [if_pos h]
      have hnil : docs = [] := List.length_eq_zero.mp h
      subst hnil
      simp
    · rw [if_neg h, show max docs.length 1 = docs.length from by omega]

/-- Witness for C9: the statistics evaluated on a concrete two-document
corpus. -/
theorem build_bm25_statistics_witness :
    (build_bm25 [["dal", "dal"], ["rice"]] 1.5 0.75).idf "dal"
      = Real.log (((((2 : ℕ) : ℝ) - ((1 : ℕ) : ℝ) + 0.5) / (((1 : ℕ) : ℝ) + 0.5)) + 1)
    ∧ (build_bm25 [["dal", "dal"], ["rice"]] 1.5 0.75).meta.avgdl
      = (((3 : ℕ) : ℚ) / ((2 : ℕ) : ℚ))
    ∧ (build_bm25 [["dal", "dal"], ["rice"]] 1.5 0.75).meta.N = 2 := by
  have h := build_bm25_statistics [["dal", "dal"], ["rice"]] 1.5 0.75 "dal"
  refine ⟨?_, ?_, h.2.2⟩
  · have hc : (List.countP (fun tokens => decide ("dal" ∈ tokens))
        [["dal", "dal"], ["rice"]]) = 1 := by decide
    rw [h.1, hc]
    norm_num
  · have hs : (List.map List.length [["dal", "dal"], ["rice"]]).sum = 3 := by
      decide
    have hl : ([["dal", "dal"], ["rice"]] : List (List String)).length = 2 := by
      decide
    rw [h.2.1, hs, hl]
    norm_num

/-- C10: a rejected admission check (the current minute-bucket counter has
reached the limit) returns false and leaves the tracker completely unchanged:
no increment and no pruning happen on the rejection path. -/
theorem rate_limit_reject_unchanged (t : Tracker) (ip : String) (cur limit : ℕ)
    (h : limit ≤ t (ip, cur / 60)) :
    (rate_limit_check t ip cur limit).1 = false
    ∧ (rate_limit_check t ip cur limit).2 = t := by
  unfold rate_limit_check
  rw [if_pos h]
  exact ⟨rfl, rfl⟩

/-- Witness for C10: a saturated tracker rejects and is returned untouched. -/
theorem rate_limit_reject_unchanged_witness :
    (rate_limit_check (fun _ => 10) "a" 0 10).1 = false
    ∧ (rate_limit_check (fun _ => 10) "a" 0 10).2 = (fun _ => 10) :=
  rate_limit_reject_unchanged (fun _ => 10) "a" 0 10 (le_refl 10)
